import Mathlib

/-!
Verification of the local-db per-collection document engine
(`src/lib/collection.js`, `src/lib/utils.js`).

JavaScript values that can be stored as documents or used as query values
are modelled by the inductive type `Json` (null, boolean, number, text,
ordered sequence, keyed structure).  Numbers are modelled as integers:
no claim under study depends on floating-point behaviour.  Strings are
Lean strings; character-level operations (replace, filter, substring
search, lower-casing) are defined explicitly over the character list.

The filesystem of one collection directory is modelled as an association
list from file names to file data; file data is either well-formed JSON
content (stored at the value level, `JSON.parse`/`JSON.stringify` being
the platform's inverse pair) or content that is corrupt beyond repair.
Filesystem write outcomes (success / failure with a message) are injected
as explicit parameters where the code catches write errors.
-/

namespace LocalDb

/-- JavaScript/JSON value: null, boolean, number, text, ordered sequence
(array), keyed structure (plain object given as field list). -/
inductive Json where
  | null : Json
  | bool (b : Bool) : Json
  | num (n : Int) : Json
  | str (s : String) : Json
  | arr (elems : List Json) : Json
  | obj (fields : List (String × Json)) : Json
deriving Repr

/-- `v === null`. -/
def Json.isNull : Json → Bool
  | .null => true
  | _ => false

/-- `typeof v === 'object'` in JavaScript: true for null, arrays and
plain objects, false for booleans, numbers and strings. -/
def Json.isJsObject : Json → Bool
  | .null => true
  | .arr _ => true
  | .obj _ => true
  | _ => false

/-- `Array.isArray v`. -/
def Json.isArr : Json → Bool
  | .arr _ => true
  | _ => false

/-- Strict equality `a === b` at the call sites of the matcher, where one
operand is always a primitive (null, boolean, number or string): two
primitives are `===`-equal iff they are the same primitive value, and a
primitive is never `===`-equal to an array or object. -/
def primEq : Json → Json → Bool
  | .null, .null => true
  | .bool a, .bool b => a == b
  | .num a, .num b => a == b
  | .str a, .str b => a == b
  | _, _ => false

/-- `xs.includes(q)` for a primitive `q` (SameValueZero coincides with
`===` on the values in this model). -/
def arrIncludes (xs : List Json) (q : Json) : Bool :=
  xs.any fun x => primEq x q

/-- First own-property lookup in a keyed structure
(`o.hasOwnProperty(k)` plus `o[k]`). -/
def lookupField : List (String × Json) → String → Option Json
  | [], _ => none
  | (k, v) :: rest, key => if k == key then some v else lookupField rest key

/-- `a :: as` is a prefix of the second list. -/
def listIsPrefixOf : List Char → List Char → Bool
  | [], _ => true
  | _ :: _, [] => false
  | a :: as, b :: bs => a == b && listIsPrefixOf as bs

/-- `needle` occurs as a contiguous run inside `hay`
(`hay.includes(needle)` over characters). -/
def listContainsRun (needle : List Char) : List Char → Bool
  | [] => listIsPrefixOf needle []
  | c :: rest => listIsPrefixOf needle (c :: rest) || listContainsRun needle rest

/-- `hay.includes(needle)` on strings. -/
def strIncludes (hay needle : String) : Bool :=
  listContainsRun needle.data hay.data

/-- `s.toLowerCase()`. -/
def lowerStr (s : String) : String :=
  String.mk (s.data.map Char.toLower)

mutual
/-- `Collection._checkMatch(docValue, queryValue)` from
`src/lib/collection.js` lines 97-119, following the source's control
flow: primitive query values compare by strict equality (with array
membership on an array document value); array query values require an
array document value of equal length matching pairwise; object query
values require a non-array object document value owning every query key
with a recursive match. -/
def checkMatch (docValue queryValue : Json) : Bool :=
  if queryValue.isNull || !queryValue.isJsObject then
    if docValue.isArr then
      match docValue with
      | .arr xs => arrIncludes xs queryValue
      | _ => false
    else
      primEq docValue queryValue
  else if !docValue.isJsObject || docValue.isNull then
    false
  else
    match queryValue with
    | .arr qs =>
      match docValue with
      | .arr ds => ds.length == qs.length && checkMatchList ds qs
      | _ => false
    | .obj qf =>
      if docValue.isArr then false
      else
        match docValue with
        | .obj df => checkMatchFields df qf
        | _ => false
    | _ => false

/-- Pairwise loop of `_checkMatch` over two arrays (already known to
have equal length at the call site). -/
def checkMatchList : List Json → List Json → Bool
  | [], _ => true
  | _ :: _, [] => true
  | d :: ds, q :: qs => checkMatch d q && checkMatchList ds qs

/-- `for (const key in queryValue)` loop of `_checkMatch`: every key of
the query object must exist in the document object and match. -/
def checkMatchFields (df : List (String × Json)) : List (String × Json) → Bool
  | [] => true
  | (k, qv) :: rest =>
    (match lookupField df k with
     | some dv => checkMatch dv qv
     | none => false) && checkMatchFields df rest
end

mutual
/-- `Collection._checkLike(docValue, queryValue)` from
`src/lib/collection.js` lines 121-146: string query values test
case-insensitive containment (directly on a string document value, or on
any string element of an array document value); other primitive query
values behave as in `_checkMatch`; object query values require a
non-array object document value (arrays rejected on either side) and
recurse per key; array query values always fail. -/
def checkLike (docValue queryValue : Json) : Bool :=
  match queryValue with
  | .str qs =>
    (match docValue with
     | .str ds => strIncludes (lowerStr ds) (lowerStr qs)
     | .arr xs =>
       xs.any fun item =>
         match item with
         | .str s => strIncludes (lowerStr s) (lowerStr qs)
         | _ => false
     | _ => false)
  | .null | .bool _ | .num _ =>
    if docValue.isArr then
      match docValue with
      | .arr xs => arrIncludes xs queryValue
      | _ => false
    else
      primEq docValue queryValue
  | .arr _ => false
  | .obj qf =>
    if !docValue.isJsObject || docValue.isNull then false
    else if docValue.isArr then false
    else
      match docValue with
      | .obj df => checkLikeFields df qf
      | _ => false

/-- `for (const key in queryValue)` loop of `_checkLike`. -/
def checkLikeFields (df : List (String × Json)) : List (String × Json) → Bool
  | [] => true
  | (k, qv) :: rest =>
    (match lookupField df k with
     | some dv => checkLike dv qv
     | none => false) && checkLikeFields df rest
end

/-! ### Spec-side matcher (written from the specification's words)

`matchesSpec` follows §4.4 of the specification sentence by sentence and
is compared with the source-embedded `checkMatch`. -/

/-- The keyed structure owns the key. -/
def hasKey (fields : List (String × Json)) (key : String) : Bool :=
  fields.any fun kv => kv.1 == key

/-- The value stored at the key (the key is known to exist whenever this
is consulted; `null` is returned otherwise). -/
def getKey (fields : List (String × Json)) (key : String) : Json :=
  (lookupField fields key).getD Json.null

/-- Is the value a keyed structure (and not a sequence)? -/
def Json.isKeyed : Json → Bool
  | .obj _ => true
  | _ => false

mutual
/-- Spec: when `queryValue` is a primitive or null, true iff `docValue`
is a sequence containing `queryValue` (element equality) or otherwise
`docValue` is strictly equal to `queryValue`; when `queryValue` is a
sequence, true iff `docValue` is a sequence of equal length matching
pairwise at every index; when `queryValue` is a keyed structure, true
iff `docValue` is a keyed structure owning every key of `queryValue`
with a recursive match there (extra keys ignored); any structural
mismatch is false. -/
def matchesSpec (docValue queryValue : Json) : Bool :=
  match queryValue with
  | .null | .bool _ | .num _ | .str _ =>
    (match docValue with
     | .arr elems => elems.any fun x => primEq x queryValue
     | _ => primEq docValue queryValue)
  | .arr qElems =>
    (match docValue with
     | .arr dElems => matchesSpecPairs dElems qElems
     | _ => false)
  | .obj qFields =>
    (match docValue with
     | .obj dFields => matchesSpecKeys dFields qFields
     | _ => false)

/-- Equal length and `matchesSpec` at every index. -/
def matchesSpecPairs : List Json → List Json → Bool
  | [], [] => true
  | d :: ds, q :: qs => matchesSpec d q && matchesSpecPairs ds qs
  | _, _ => false

/-- Every key of the query structure exists in the document structure
and `matchesSpec` holds on that key's value. -/
def matchesSpecKeys (dFields : List (String × Json)) : List (String × Json) → Bool
  | [] => true
  | (k, qv) :: rest =>
    hasKey dFields k && matchesSpec (getKey dFields k) qv && matchesSpecKeys dFields rest
end

/-- Spec: `like` with a text query value — true iff the document value
is text whose lowercase form contains the query's lowercase form, or a
sequence with some text element whose lowercase form contains it; false
for every other document value. -/
def likeTextSpec (docValue : Json) (q : String) : Bool :=
  match docValue with
  | .str ds => strIncludes (lowerStr ds) (lowerStr q)
  | .arr elems =>
    elems.any fun item =>
      match item with
      | .str s => strIncludes (lowerStr s) (lowerStr q)
      | _ => false
  | _ => false

/-! ### Matcher lemmas -/

theorem hasKey_eq_isSome (df : List (String × Json)) (k : String) :
    hasKey df k = (lookupField df k).isSome := by
  induction df with
  | nil => rfl
  | cons kv rest ih =>
    obtain ⟨k1, v⟩ := kv
    by_cases h : (k1 == k) = true
    · simp [hasKey, lookupField, h]
    · simp only [hasKey, lookupField, h, List.any_cons, Bool.false_or, if_false]
      simpa [hasKey] using ih

theorem getKey_of_lookup {df : List (String × Json)} {k : String} {dv : Json}
    (h : lookupField df k = some dv) : getKey df k = dv := by
  simp [getKey, h]

theorem pairs_eq (qs : List Json)
    (ih : ∀ q ∈ qs, ∀ d, checkMatch d q = matchesSpec d q) :
    ∀ ds : List Json,
      ((ds.length == qs.length) && checkMatchList ds qs) = matchesSpecPairs ds qs := by
  induction qs with
  | nil => intro ds; cases ds <;> simp [checkMatchList, matchesSpecPairs]
  | cons q qs ihq =>
    intro ds
    cases ds with
    | nil => simp [checkMatchList, matchesSpecPairs]
    | cons d ds =>
      have h1 : checkMatch d q = matchesSpec d q := ih q (by simp) d
      have h2 := ihq (fun x hx d => ih x (by simp [hx]) d) ds
      simp only [checkMatchList, matchesSpecPairs, ← h1, ← h2,
        List.length_cons]
      cases hcm : checkMatch d q <;>
        cases hl : (ds.length == qs.length) <;>
          simp_all [Nat.succ_inj]

theorem fields_eq (qf : List (String × Json))
    (ih : ∀ kv ∈ qf, ∀ d, checkMatch d kv.2 = matchesSpec d kv.2)
    (df : List (String × Json)) :
    checkMatchFields df qf = matchesSpecKeys df qf := by
  induction qf with
  | nil => simp [checkMatchFields, matchesSpecKeys]
  | cons kv rest ihq =>
    obtain ⟨k, qv⟩ := kv
    have h1 : ∀ dv, checkMatch dv qv = matchesSpec dv qv :=
      fun dv => ih (k, qv) (by simp) dv
    have h2 := ihq (fun kv hkv d => ih kv (by simp [hkv]) d)
    cases hl : lookupField df k with
    | none =>
      have hk : hasKey df k = false := by simp [hasKey_eq_isSome, hl]
      simp [checkMatchFields, matchesSpecKeys, hl, hk, h2]
    | some dv =>
      have hk : hasKey df k = true := by simp [hasKey_eq_isSome, hl]
      simp [checkMatchFields, matchesSpecKeys, hl, hk,
        getKey_of_lookup hl, h1, h2, Bool.and_assoc]

theorem checkMatch_eq_matchesSpec_aux :
    ∀ (n : Nat) (q : Json), sizeOf q ≤ n →
      ∀ d, checkMatch d q = matchesSpec d q := by
  intro n
  induction n with
  | zero => intro q hq; cases q <;> simp at hq
  | succ n ihn =>
    intro q hq d
    cases q with
    | null => cases d <;> simp [checkMatch, matchesSpec, Json.isNull,
        Json.isJsObject, Json.isArr, arrIncludes]
    | bool b => cases d <;> simp [checkMatch, matchesSpec, Json.isNull,
        Json.isJsObject, Json.isArr, arrIncludes]
    | num m => cases d <;> simp [checkMatch, matchesSpec, Json.isNull,
        Json.isJsObject, Json.isArr, arrIncludes]
    | str s => cases d <;> simp [checkMatch, matchesSpec, Json.isNull,
        Json.isJsObject, Json.isArr, arrIncludes]
    | arr qs =>
      have ih : ∀ x ∈ qs, ∀ d, checkMatch d x = matchesSpec d x := by
        intro x hx d
        apply ihn
        have h1 : sizeOf x < sizeOf qs := List.sizeOf_lt_of_mem hx
        have h2 : sizeOf (Json.arr qs) = 1 + sizeOf qs := by simp
        omega
      cases d <;> simp [checkMatch, matchesSpec, Json.isNull,
        Json.isJsObject, Json.isArr, pairs_eq qs ih]
    | obj qf =>
      have ih : ∀ kv ∈ qf, ∀ d, checkMatch d kv.2 = matchesSpec d kv.2 := by
        intro kv hkv d
        obtain ⟨k, v⟩ := kv
        apply ihn
        have h1 : sizeOf (k, v) < sizeOf qf := List.sizeOf_lt_of_mem hkv
        have h2 : sizeOf (Json.obj qf) = 1 + sizeOf qf := by simp
        have h3 : sizeOf (k, v) = 1 + sizeOf k + sizeOf v := by simp
        show sizeOf v ≤ n
        omega
      cases d <;> simp [checkMatch, matchesSpec, Json.isNull,
        Json.isJsObject, Json.isArr, fields_eq qf ih]

/-- C1: the source matcher `_checkMatch` computes exactly the predicate
described by the specification: primitive-or-null query values compare
by strict equality (with membership when the document value is a
sequence); sequence query values require an equal-length sequence
matching pairwise; keyed query values require a keyed document value
owning every query key with recursive matches, extra keys ignored. -/
theorem checkMatch_eq_matchesSpec (d q : Json) : checkMatch d q = matchesSpec d q :=
  checkMatch_eq_matchesSpec_aux (sizeOf q) q (Nat.le_refl _) d

/-- The per-key loop of `_checkLike` written with explicit key-ownership
tests. -/
theorem checkLikeFields_eq (df : List (String × Json)) :
    ∀ qf : List (String × Json),
      checkLikeFields df qf
        = qf.all fun kv => hasKey df kv.1 && checkLike (getKey df kv.1) kv.2 := by
  intro qf
  induction qf with
  | nil => simp [checkLikeFields]
  | cons kv rest ih =>
    obtain ⟨k, qv⟩ := kv
    cases hl : lookupField df k with
    | none =>
      have hk : hasKey df k = false := by simp [hasKey_eq_isSome, hl]
      simp [checkLikeFields, hl, hk, ih]
    | some dv =>
      have hk : hasKey df k = true := by simp [hasKey_eq_isSome, hl]
      simp [checkLikeFields, hl, hk, getKey_of_lookup hl, ih]

/-- C3: the source predicate `_checkLike` behaves as specified: a text
query value tests case-insensitive containment on a text document value
or on some text element of a sequence document value and fails on
everything else; a keyed query value fails whenever the document value
is not a keyed structure (in particular on sequences) and otherwise
recurses per key with every key required to pass; a sequence query
value always fails (no pairwise mode). -/
theorem checkLike_spec :
    (∀ d qs, checkLike d (Json.str qs) = likeTextSpec d qs)
    ∧ (∀ (d : Json) qf, d.isKeyed = false → checkLike d (Json.obj qf) = false)
    ∧ (∀ df qf, checkLike (Json.obj df) (Json.obj qf)
        = qf.all fun kv => hasKey df kv.1 && checkLike (getKey df kv.1) kv.2)
    ∧ (∀ d qs, checkLike d (Json.arr qs) = false) := by
  refine ⟨?_, ?_, ?_, ?_⟩
  · intro d qs
    cases d <;> simp [checkLike, likeTextSpec]
  · intro d qf h
    cases d <;> simp_all [checkLike, Json.isKeyed, Json.isNull,
      Json.isJsObject, Json.isArr]
  · intro df qf
    simp [checkLike, Json.isNull, Json.isJsObject, Json.isArr,
      checkLikeFields_eq]
  · intro d qs
    cases d <;> simp [checkLike]

/-- Witness for C3 at a concrete input: a numeric document value against
a keyed query value is rejected. -/
theorem checkLike_spec_witness :
    checkLike (Json.num 3) (Json.obj [("a", Json.null)]) = false :=
  checkLike_spec.2.1 (Json.num 3) [("a", Json.null)] (by decide)

/-! ### Identifier sanitization and document paths (`Collection._getDocPath`) -/

/-- A path-separator character (the class `[/\\]` in the source). -/
def isSepChar (c : Char) : Bool := c == '/' || c == '\\'

/-- A reserved character (the class `[<>:"|?*]` in the source). -/
def isReservedChar (c : Char) : Bool :=
  c == '<' || c == '>' || c == ':' || c == '"' || c == '|' || c == '?' || c == '*'

/-- `docId.replace(/[/\\]/g, '_').replace(/[<>:"|?*]/g, '')`: path
separators become an underscore, then reserved characters are removed. -/
def sanitizeId (s : String) : String :=
  String.mk ((s.data.map fun c => if isSepChar c then '_' else c).filter
    fun c => !isReservedChar c)

/-- `docId.trim() === ''` (the identifier is empty or all whitespace). -/
def isBlankStr (s : String) : Bool := s.data.all Char.isWhitespace

def idEmptyMsg : String := "Document ID must be a non-empty string."

def idTraversalMsg (docId : String) : String :=
  s!"Invalid document ID format. Cannot contain ..: {docId}"

def idTooLongMsg (docId : String) : String :=
  s!"Document ID is too long: {docId}"

/-- `Collection._getDocPath` on a string identifier, reduced to the file
name inside the collection directory (the directory part is fixed):
reject blank ids, sanitize, reject a remaining `..` or length over 200,
and return `sanitizedDocId + ".json"`. -/
def getDocFileNameStr (docId : String) : Except String String :=
  if isBlankStr docId then Except.error idEmptyMsg
  else if listContainsRun ['.', '.'] (sanitizeId docId).data then
    Except.error (idTraversalMsg docId)
  else if (sanitizeId docId).data.length > 200 then
    Except.error (idTooLongMsg docId)
  else
    Except.ok (sanitizeId docId ++ ".json")

/-- `Collection._getDocPath` on an arbitrary JavaScript value: a
non-string identifier fails the `typeof docId !== 'string'` test. -/
def getDocFileName : Json → Except String String
  | .str s => getDocFileNameStr s
  | _ => Except.error idEmptyMsg

/-- The sanitization transform exactly as the claim words it: path
separators and reserved characters are all removed (stripped). -/
def stripSpecChars (s : String) : String :=
  String.mk (s.data.filter fun c => !(isSepChar c || isReservedChar c))

/-- C2 counterexample: on the raw identifier "a/b" the code produces the
file name "a_b.json" (the separator is replaced by an underscore), not
the "ab.json" that pure stripping would give. -/
theorem sanitize_strip_cex :
    getDocFileNameStr "a/b" = Except.ok "a_b.json"
    ∧ stripSpecChars "a/b" ++ ".json" = "ab.json"
    ∧ ("a_b.json" : String) ≠ "ab.json" := by
  refine ⟨rfl, rfl, by decide⟩

/-- The amended sanitization policy, written from the amended claim:
reserved characters are removed and each path separator is replaced by
an underscore. -/
def sanitizeAmended (s : String) : String :=
  String.mk ((s.data.filter fun c => !isReservedChar c).map
    fun c => if isSepChar c then '_' else c)

theorem sep_not_reserved {c : Char} (h : isSepChar c = true) :
    isReservedChar c = false := by
  simp [isSepChar] at h
  rcases h with h | h <;> subst h <;> rfl

theorem sanitizeId_eq_amended (s : String) : sanitizeId s = sanitizeAmended s := by
  unfold sanitizeId sanitizeAmended
  congr 1
  induction s.data with
  | nil => rfl
  | cons c cs ih =>
    by_cases hs : isSepChar c = true
    · have hr : isReservedChar c = false := sep_not_reserved hs
      have hu : isReservedChar '_' = false := rfl
      simp [hs, hr, hu, List.filter_cons, ih]
    · by_cases hr : isReservedChar c = true
      · simp [hs, hr, List.filter_cons, ih]
      · simp [hs, hr, List.filter_cons, ih]

/-- C2 amended: sanitization replaces each path separator with an
underscore and strips the reserved characters; for every identifier
passing the traversal and length checks the document file name is the
sanitized identifier followed by ".json". -/
theorem getDocFileName_amended (docId fn : String)
    (h : getDocFileNameStr docId = Except.ok fn) :
    fn = sanitizeAmended docId ++ ".json" := by
  rw [← sanitizeId_eq_amended]
  unfold getDocFileNameStr at h
  split at h
  · exact absurd h (by simp)
  · split at h
    · exact absurd h (by simp)
    · split at h
      · exact absurd h (by simp)
      · injection h with h2
        exact h2.symm

/-- Witness for the amended C2 at the identifier "a/b". -/
theorem getDocFileName_amended_witness :
    "a_b.json" = sanitizeAmended "a/b" ++ ".json" :=
  getDocFileName_amended "a/b" "a_b.json" rfl

/-! ### The collection directory model and the document operations -/

/-- One document file: well-formed JSON text holding the decoded value,
or text that fails both the direct parse and the repair pass. -/
inductive FileData where
  | good (content : Json)
  | corrupt
deriving Repr

/-- A collection directory: file names mapped to file contents. -/
abbrev Dir := List (String × FileData)

def lookupFile : Dir → String → Option FileData
  | [], _ => none
  | (n, d) :: rest, name => if n == name then some d else lookupFile rest name

/-- `fsp.writeFile`: create the file or fully overwrite it. -/
def insertFile : Dir → String → FileData → Dir
  | [], name, d => [(name, d)]
  | (n, e) :: rest, name, d =>
    if n == name then (name, d) :: rest else (n, e) :: insertFile rest name d

/-- `fsp.unlink`: remove the file. -/
def removeFile : Dir → String → Dir
  | [], _ => []
  | (n, e) :: rest, name =>
    if n == name then removeFile rest name else (n, e) :: removeFile rest name

mutual
/-- Serialized JSON text (model of `JSON.stringify(data, null, 2)`; the
exact text layout is never inspected by a claim, only its identity). -/
def jsonStringify : Json → String
  | .null => "null"
  | .bool b => if b then "true" else "false"
  | .num n => toString n
  | .str s => "\x22" ++ s ++ "\x22"
  | .arr elems => "[" ++ jsonStringifyList elems ++ "]"
  | .obj fields => "\x7b" ++ jsonStringifyFields fields ++ "\x7d"

/-- Comma-separated serialization of sequence elements. -/
def jsonStringifyList : List Json → String
  | [] => ""
  | [x] => jsonStringify x
  | x :: rest => jsonStringify x ++ "," ++ jsonStringifyList rest

/-- Comma-separated serialization of keyed fields. -/
def jsonStringifyFields : List (String × Json) → String
  | [] => ""
  | [(k, v)] => "\x22" ++ k ++ "\x22:" ++ jsonStringify v
  | (k, v) :: rest =>
    "\x22" ++ k ++ "\x22:" ++ jsonStringify v ++ "," ++ jsonStringifyFields rest
end

/-- Outcome of one raw filesystem write, injected where the source
catches a write error. -/
inductive WriteOutcome where
  | ok
  | fail (msg : String)

/-- The success value of `Collection.set`:
`{ success: true, id: docId, path: path.basename(docPath) }`. -/
structure SetSuccess where
  id : Json
  path : String
deriving Repr

/-- The `.backup/<collection>/` directory: backup file paths mapped to
the serialized text written there. -/
abbrev BackupDir := List (String × String)

/-- `backupDocument(rootDbPath, collectionName, docId, jsonDataString)`
from `src/lib/utils.js` lines 55-69, at timestamp `Date.now() = ts`:
writes the text under `rootDbPath/.backup/collectionName/` in a file
named `sanitizedDocId_ts.json.bak` and returns its path. -/
def backupDocument (rootDbPath collectionName docId jsonDataString : String)
    (ts : Nat) (bak : BackupDir) : String × BackupDir :=
  let backupFilePath := rootDbPath ++ "/.backup/" ++ collectionName ++ "/"
      ++ sanitizeId docId ++ "_" ++ toString ts ++ ".json.bak"
  (backupFilePath, (backupFilePath, jsonDataString) :: bak)

def setFailBothMsg (docId writeErr backupErr : String) : String :=
  s!"Failed to set document {docId} and also failed to backup: {writeErr}. Backup failure: {backupErr}"

def setFailBackedUpMsg (docId writeErr : String) : String :=
  s!"Failed to set document {docId}: {writeErr}. Data was backed up."

/-- `Collection.set(docId, data)` from `src/lib/collection.js` lines
43-67 (undefined data is not representable in `Json`, so the
serializability guard always passes): serialize, compute the document
path, write; on primary-write failure run the backup path and raise the
corresponding error.  Returns the result together with the collection
directory and backup directory afterwards. -/
def setOp (rootDbPath collectionName : String) (st : Dir) (bak : BackupDir)
    (docId data : Json) (primary backupW : WriteOutcome) (ts : Nat) :
    Except String SetSuccess × Dir × BackupDir :=
  let jsonDataString := jsonStringify data
  match docId with
  | .str idStr =>
    match getDocFileNameStr idStr with
    | .error e => (.error e, st, bak)
    | .ok fn =>
      match primary with
      | .ok => (.ok ⟨docId, fn⟩, insertFile st fn (.good data), bak)
      | .fail writeErr =>
        match backupW with
        | .ok =>
          let res := backupDocument rootDbPath collectionName idStr jsonDataString ts bak
          (.error (setFailBackedUpMsg idStr writeErr), st, res.2)
        | .fail backupErr =>
          (.error (setFailBothMsg idStr writeErr backupErr), st, bak)
  | _ => (.error idEmptyMsg, st, bak)

/-- `Collection.get(docId)` from `src/lib/collection.js` lines 69-81:
a missing file (ENOENT) yields `null`; a corrupt file raises; otherwise
the decoded content is returned. -/
def getOp (st : Dir) (docId : Json) : Except String Json :=
  match getDocFileName docId with
  | .error e => Except.error e
  | .ok fn =>
    match lookupFile st fn with
    | none => Except.ok Json.null
    | some (.good content) => Except.ok content
    | some .corrupt => Except.error "Failed to get document."

/-- The result of `Collection.del`: success, or the structured
not-found result `{ success: false, id, message: 'Document not found.' }`. -/
inductive DelResult where
  | deleted (id : Json)
  | notFound (id : Json) (message : String)
deriving Repr

/-- `Collection.del(docId)` from `src/lib/collection.js` lines 83-95:
unlink; ENOENT yields the non-throwing not-found result.  Returns the
result together with the directory afterwards. -/
def delOp (st : Dir) (docId : Json) : Except String DelResult × Dir :=
  match getDocFileName docId with
  | .error e => (Except.error e, st)
  | .ok fn =>
    match lookupFile st fn with
    | none => (Except.ok (.notFound docId "Document not found."), st)
    | some _ => (Except.ok (.deleted docId), removeFile st fn)

/-! ### Write-failure recovery (C4) -/

/-- C4: for a valid identifier, when the primary write fails the backup
path is invoked with the already-serialized text, writing it under
`rootPath/.backup/<collectionName>/` in a file named
`<sanitizedId>_<unixMillis>.json.bak`; if the backup itself fails, the
raised error names both the original write error and the backup error;
if the backup succeeds, the raised error states the document was not
saved but was backed up. -/
theorem setOp_write_failure (root coll : String) (st : Dir) (bak : BackupDir)
    (idStr fn : String) (data : Json) (writeErr : String) (ts : Nat)
    (h : getDocFileNameStr idStr = Except.ok fn) :
    (setOp root coll st bak (Json.str idStr) data (.fail writeErr) .ok ts
      = (Except.error (setFailBackedUpMsg idStr writeErr), st,
         (root ++ "/.backup/" ++ coll ++ "/" ++ sanitizeId idStr ++ "_"
            ++ toString ts ++ ".json.bak",
          jsonStringify data) :: bak))
    ∧ ∀ backupErr,
        setOp root coll st bak (Json.str idStr) data (.fail writeErr)
            (.fail backupErr) ts
          = (Except.error (setFailBothMsg idStr writeErr backupErr), st, bak) := by
  constructor
  · simp [setOp, h, backupDocument]
  · intro backupErr
    simp [setOp, h]

/-- Witness for C4 at the identifier "a". -/
theorem setOp_write_failure_witness :
    (setOp "root" "c" [] [] (Json.str "a") Json.null (.fail "werr") .ok 7
      = (Except.error (setFailBackedUpMsg "a" "werr"), [],
         [("root" ++ "/.backup/" ++ "c" ++ "/" ++ sanitizeId "a" ++ "_"
             ++ toString 7 ++ ".json.bak", jsonStringify Json.null)]))
    ∧ ∀ backupErr,
        setOp "root" "c" [] [] (Json.str "a") Json.null (.fail "werr")
            (.fail backupErr) 7
          = (Except.error (setFailBothMsg "a" "werr" backupErr), [], []) :=
  setOp_write_failure "root" "c" [] [] "a" "a.json" Json.null "werr" 7 rfl

/-! ### Invalid identifiers are rejected before any filesystem action (C5) -/

/-- The claim's invalid-identifier set: a non-string or empty raw
identifier, a sanitized form still containing `..`, or a sanitized
length over 200. -/
def badIdSpec : Json → Bool
  | .str s => s == "" || listContainsRun ['.', '.'] (sanitizeId s).data
      || decide ((sanitizeId s).data.length > 200)
  | _ => true

/-- The identifier-validation errors raised by `_getDocPath`. -/
def IsInvalidIdError (e : String) : Prop :=
  e = idEmptyMsg ∨ (∃ id, e = idTraversalMsg id) ∨ ∃ id, e = idTooLongMsg id

theorem getDocFileNameStr_error_of_bad {s : String}
    (h : (s == "" || listContainsRun ['.', '.'] (sanitizeId s).data
        || decide ((sanitizeId s).data.length > 200)) = true) :
    ∃ e, IsInvalidIdError e ∧ getDocFileNameStr s = Except.error e := by
  by_cases hb : isBlankStr s = true
  · exact ⟨idEmptyMsg, Or.inl rfl, by simp [getDocFileNameStr, hb]⟩
  · by_cases hd : listContainsRun ['.', '.'] (sanitizeId s).data = true
    · exact ⟨idTraversalMsg s, Or.inr (Or.inl ⟨s, rfl⟩),
        by simp [getDocFileNameStr, hb, hd]⟩
    · by_cases hl : (sanitizeId s).data.length > 200
      · have hl2 : 200 < (sanitizeId s).length := by simpa using hl
        exact ⟨idTooLongMsg s, Or.inr (Or.inr ⟨s, rfl⟩),
          by simp [getDocFileNameStr, hb, hd, hl2]⟩
      · exfalso
        have hl2 : ¬ 200 < (sanitizeId s).length := by simpa using hl
        simp [hd, hl2] at h
        subst h
        exact hb rfl

/-- C5: for every identifier in the invalid set (empty or non-string,
sanitized form still containing `..`, or sanitized length over 200),
`set`, `get` and `del` all fail with the identifier-validation error and
leave both the collection directory and the backup directory untouched,
whatever the injected write outcomes. -/
theorem invalidId_no_mutation (st : Dir) (bak : BackupDir) (docId data : Json)
    (root coll : String) (primary backupW : WriteOutcome) (ts : Nat)
    (h : badIdSpec docId = true) :
    ∃ e, IsInvalidIdError e
      ∧ setOp root coll st bak docId data primary backupW ts
          = (Except.error e, st, bak)
      ∧ getOp st docId = Except.error e
      ∧ delOp st docId = (Except.error e, st) := by
  cases docId with
  | str s =>
    obtain ⟨e, he, hg⟩ := getDocFileNameStr_error_of_bad
      (by simpa [badIdSpec] using h)
    exact ⟨e, he, by simp [setOp, hg], by simp [getOp, getDocFileName, hg],
      by simp [delOp, getDocFileName, hg]⟩
  | null => exact ⟨idEmptyMsg, Or.inl rfl, rfl, rfl, rfl⟩
  | bool b => exact ⟨idEmptyMsg, Or.inl rfl, rfl, rfl, rfl⟩
  | num n => exact ⟨idEmptyMsg, Or.inl rfl, rfl, rfl, rfl⟩
  | arr elems => exact ⟨idEmptyMsg, Or.inl rfl, rfl, rfl, rfl⟩
  | obj fields => exact ⟨idEmptyMsg, Or.inl rfl, rfl, rfl, rfl⟩

/-- Witness for C5 at the traversal identifier "a..b". -/
theorem invalidId_no_mutation_witness :
    ∃ e, IsInvalidIdError e
      ∧ setOp "r" "c" [] [] (Json.str "a..b") Json.null .ok .ok 0
          = (Except.error e, [], [])
      ∧ getOp [] (Json.str "a..b") = Except.error e
      ∧ delOp [] (Json.str "a..b") = (Except.error e, []) :=
  invalidId_no_mutation [] [] (Json.str "a..b") Json.null "r" "c" .ok .ok 0
    (by decide)

/-! ### Deleting an absent document (C8) and stored null vs absent (C9) -/

/-- The collection directory after one call of `del`. -/
def delState (st : Dir) (docId : Json) : Dir := (delOp st docId).2

/-- C8: for a valid identifier whose document is absent, `del` returns
the structured not-found result without raising and leaves the directory
unchanged; repeating `del` any number of times keeps returning the
not-found result on the unchanged directory. -/
theorem del_absent_idempotent (st : Dir) (docId : Json) (fn : String)
    (h1 : getDocFileName docId = Except.ok fn)
    (h2 : lookupFile st fn = none) :
    delOp st docId = (Except.ok (.notFound docId "Document not found."), st)
    ∧ ∀ n : Nat,
        (fun s => delState s docId)^[n] st = st
        ∧ delOp ((fun s => delState s docId)^[n] st) docId
            = (Except.ok (.notFound docId "Document not found."), st) := by
  have hdel : delOp st docId
      = (Except.ok (.notFound docId "Document not found."), st) := by
    simp [delOp, h1, h2]
  refine ⟨hdel, ?_⟩
  intro n
  have hiter : ∀ m : Nat, (fun s => delState s docId)^[m] st = st := by
    intro m
    induction m with
    | zero => rfl
    | succ m ih =>
      rw [Function.iterate_succ_apply, show delState st docId = st from by
        simp [delState, hdel]]
      exact ih
  exact ⟨hiter n, by rw [hiter n]; exact hdel⟩

/-- Witness for C8 on the empty collection and identifier "a". -/
theorem del_absent_idempotent_witness :
    delOp [] (Json.str "a")
      = (Except.ok (.notFound (Json.str "a") "Document not found."), [])
    ∧ ∀ n : Nat,
        (fun s => delState s (Json.str "a"))^[n] [] = []
        ∧ delOp ((fun s => delState s (Json.str "a"))^[n] []) (Json.str "a")
            = (Except.ok (.notFound (Json.str "a") "Document not found."), []) :=
  del_absent_idempotent [] (Json.str "a") "a.json" rfl rfl

theorem lookupFile_insertFile (st : Dir) (fn : String) (d : FileData) :
    lookupFile (insertFile st fn d) fn = some d := by
  induction st with
  | nil => simp [insertFile, lookupFile]
  | cons e rest ih =>
    obtain ⟨n, v⟩ := e
    by_cases hnn : (n == fn) = true
    · simp [insertFile, lookupFile, hnn]
    · simp [insertFile, lookupFile, hnn, ih]

/-- C9: after `set(id, null)` succeeds, `get(id)` returns `null` — the
same value `get` returns when no document file exists for `id` — so a
stored null document and an absent document are indistinguishable
through the public interface. -/
theorem set_null_get_null (root coll : String) (st : Dir) (bak : BackupDir)
    (idStr fn : String) (ts : Nat)
    (h : getDocFileNameStr idStr = Except.ok fn) :
    getOp (setOp root coll st bak (Json.str idStr) Json.null .ok .ok ts).2.1
        (Json.str idStr)
      = Except.ok Json.null
    ∧ ∀ st2 : Dir, lookupFile st2 fn = none →
        getOp st2 (Json.str idStr) = Except.ok Json.null := by
  constructor
  · simp [setOp, h, getOp, getDocFileName, lookupFile_insertFile]
  · intro st2 h2
    simp [getOp, getDocFileName, h, h2]

/-- Witness for C9 at the identifier "a" on the empty collection. -/
theorem set_null_get_null_witness :
    getOp (setOp "r" "c" [] [] (Json.str "a") Json.null .ok .ok 0).2.1
        (Json.str "a")
      = Except.ok Json.null
    ∧ ∀ st2 : Dir, lookupFile st2 "a.json" = none →
        getOp st2 (Json.str "a") = Except.ok Json.null :=
  set_null_get_null "r" "c" [] [] "a" "a.json" 0 rfl

/-! ### Scanning a collection (`Collection.all`) -/

/-- `fileName.endsWith('.json')`. -/
def strEndsWith (s sfx : String) : Bool :=
  listIsPrefixOf sfx.data.reverse s.data.reverse

/-- JavaScript falsiness of a decoded document (`!docContent`): null,
false, zero and the empty text are falsy; sequences and keyed structures
are truthy. -/
def jsFalsy : Json → Bool
  | .null => true
  | .bool b => !b
  | .num n => n == 0
  | .str s => s == ""
  | _ => false

/-- A canonical array-index property key (`"0"`, `"1"`, ...; JavaScript
own index properties use the canonical decimal form). -/
def parseIndex (s : String) : Option Nat :=
  match s.toNat? with
  | some n => if toString n == s then some n else none
  | none => none

/-- `docContent.hasOwnProperty(key)` plus `docContent[key]` at the top
level of `all`'s filter: a keyed structure owns its fields; a sequence
owns its canonical indices and `length`; text owns its indices and
`length`; other primitives own nothing. -/
def getOwnProp : Json → String → Option Json
  | .obj fields, key => lookupField fields key
  | .arr elems, key =>
    if key == "length" then some (.num elems.length)
    else
      match parseIndex key with
      | some i => elems[i]?
      | none => none
  | .str s, key =>
    if key == "length" then some (.num s.data.length)
    else
      match parseIndex key with
      | some i => (s.data[i]?).map fun c => Json.str (String.mk [c])
      | none => none
  | _, _ => none

/-- The `search.match` / `search.like` blocks of a query (each an
optional keyed block of field queries; an absent or falsy block is
skipped by the code). -/
structure SearchBlock where
  matchBlock : Option (List (String × Json))
  likeBlock : Option (List (String × Json))

/-- A query object passed to `all`: only the `search` property is read
by the code; any other top-level properties are carried untouched. -/
structure Query where
  search : Option SearchBlock
  extraProps : List (String × Json)

/-- The per-document filter of `Collection.all` for a present `search`
block: every `match` key must be owned and `_checkMatch`, then every
`like` key must be owned and `_checkLike`. -/
def docPasses (sb : SearchBlock) (docContent : Json) : Bool :=
  (match sb.matchBlock with
   | none => true
   | some mb => mb.all fun kv =>
       match getOwnProp docContent kv.1 with
       | some dv => checkMatch dv kv.2
       | none => false)
  && (match sb.likeBlock with
      | none => true
      | some lb => lb.all fun kv =>
          match getOwnProp docContent kv.1 with
          | some dv => checkLike dv kv.2
          | none => false)

/-- `Collection.all(query)` from `src/lib/collection.js` lines 148-197
over the directory model: walk the directory listing in order, keep
files ending in `.json`, decode each (skipping files whose read or
parse fails), skip falsy decoded content, and when the query has a
`search` block keep only documents passing it. -/
def allOp (st : Dir) (query : Option Query) : List Json :=
  st.filterMap fun entry =>
    if !(strEndsWith entry.1 ".json") then none
    else
      match entry.2 with
      | .corrupt => none
      | .good docContent =>
        if jsFalsy docContent then none
        else
          match query with
          | none => some docContent
          | some q =>
            match q.search with
            | none => some docContent
            | some sb => if docPasses sb docContent then some docContent else none

/-- C10: a query without a `search` property (whatever other top-level
properties it carries, for example unwrapped `match`/`like` blocks) is
silently ignored: the scan returns every decoded document unfiltered,
exactly as with no query at all. -/
theorem all_no_search_unfiltered (st : Dir) (q : Query) (h : q.search = none) :
    allOp st (some q) = allOp st none := by
  obtain ⟨qs, extra⟩ := q
  simp only at h
  subst h
  rfl

/-- Witness for C10: a query carrying an unwrapped top-level `match`
block filters nothing. -/
theorem all_no_search_unfiltered_witness :
    allOp [("a.json", FileData.good (Json.num 1))]
        (some ⟨none, [("match", Json.obj [("a", Json.num 2)])]⟩)
      = allOp [("a.json", FileData.good (Json.num 1))] none :=
  all_no_search_unfiltered _ _ rfl

/-! ### Scan versus per-identifier get (C6) -/

/-- C6 counterexample: a collection holding exactly one document whose
decoded content is the falsy value `0` — the unfiltered scan omits it
(`if (!docContent) continue`), while `get` on its identifier returns
it, so the two sets of documents differ. -/
theorem all_get_cex :
    allOp [("a.json", FileData.good (Json.num 0))] none = []
    ∧ getOp [("a.json", FileData.good (Json.num 0))] (Json.str "a")
        = Except.ok (Json.num 0)
    ∧ Json.num 0 ∉ allOp [("a.json", FileData.good (Json.num 0))] none :=
  ⟨rfl, rfl, by simp [show allOp [("a.json", FileData.good (Json.num 0))] none = [] from rfl]⟩

theorem lookupFile_eq_of_mem {st : Dir} {fn : String} {fd : FileData}
    (hnodup : (st.map Prod.fst).Nodup) (hm : (fn, fd) ∈ st) :
    lookupFile st fn = some fd := by
  induction st with
  | nil => simp at hm
  | cons e rest ih =>
    obtain ⟨n, d⟩ := e
    simp only [List.map_cons, List.nodup_cons] at hnodup
    rcases List.mem_cons.mp hm with heq | hmem
    · obtain ⟨h1, h2⟩ := Prod.mk.injEq .. ▸ heq
      subst h1; subst h2
      simp [lookupFile]
    · have hne : (n == fn) = false := by
        apply beq_eq_false_iff_ne.mpr
        intro hcontra
        subst hcontra
        exact hnodup.1 (List.mem_map_of_mem Prod.fst hmem)
      simp [lookupFile, hne, ih hnodup.2 hmem]

/-- C6 amended: with no query, the scan returns exactly the decodable
documents whose content is truthy (documents decoding to null, false, 0
or the empty text, and corrupt files, are omitted); and `get` on the
identifier of any present well-formed document returns its content — so
the scan agrees with calling `get` on every present identifier up to
the omission of falsy and corrupt documents. -/
theorem all_eq_gets_truthy (st : Dir)
    (hnodup : (st.map Prod.fst).Nodup)
    (hnames : ∀ p ∈ st, strEndsWith p.1 ".json" = true
        ∧ ∃ id, p.1 = id ++ ".json"
          ∧ getDocFileNameStr id = Except.ok p.1) :
    (∀ j, j ∈ allOp st none ↔
        ∃ id, (id ++ ".json", FileData.good j) ∈ st
          ∧ getDocFileNameStr id = Except.ok (id ++ ".json")
          ∧ jsFalsy j = false)
    ∧ ∀ id j, (id ++ ".json", FileData.good j) ∈ st →
        getDocFileNameStr id = Except.ok (id ++ ".json") →
        getOp st (Json.str id) = Except.ok j := by
  constructor
  · intro j
    rw [allOp, List.mem_filterMap]
    constructor
    · rintro ⟨⟨fn, fd⟩, hp, hf⟩
      obtain ⟨hend, id, hid, hok⟩ := hnames (fn, fd) hp
      simp only [hend, Bool.not_true, Bool.false_eq_true, if_false] at hf
      cases fd with
      | corrupt => exact absurd hf (by simp)
      | good c =>
        by_cases hfal : jsFalsy c = true
        · simp [hfal] at hf
        · simp only [hfal, Bool.false_eq_true, if_false, Option.some.injEq] at hf
          subst hf
          exact ⟨id, hid ▸ hp, hid ▸ hok, by simpa using hfal⟩
    · rintro ⟨id, hmem, hok, hfal⟩
      refine ⟨(id ++ ".json", FileData.good j), hmem, ?_⟩
      have hend := (hnames (id ++ ".json", FileData.good j) hmem).1
      simp [hend, hfal]
  · intro id j hmem hok
    simp [getOp, getDocFileName, hok, lookupFile_eq_of_mem hnodup hmem]

/-- Witness for the amended C6 on a one-document collection. -/
theorem all_eq_gets_truthy_witness :
    (∀ j, j ∈ allOp [("a.json", FileData.good (Json.num 1))] none ↔
        ∃ id, (id ++ ".json", FileData.good j)
            ∈ [("a.json", FileData.good (Json.num 1))]
          ∧ getDocFileNameStr id = Except.ok (id ++ ".json")
          ∧ jsFalsy j = false)
    ∧ ∀ id j, (id ++ ".json", FileData.good j)
          ∈ [("a.json", FileData.good (Json.num 1))] →
        getDocFileNameStr id = Except.ok (id ++ ".json") →
        getOp [("a.json", FileData.good (Json.num 1))] (Json.str id)
          = Except.ok j :=
  all_eq_gets_truthy _ (by simp) (by
    intro p hp
    simp only [List.mem_singleton] at hp
    subst hp
    exact ⟨rfl, "a", rfl, rfl⟩)

/-! ### JSON repair on read (`tryRepairAndParseJson`, C7) -/

/-- An error raised by `JSON.parse` in the model: a syntax error (the
kind that triggers the repair pass) or any other error (rethrown
untouched by the repair logic). -/
inductive ParseError where
  | synErr (msg : String)
  | otherErr (msg : String)
deriving Repr, DecidableEq

/-- `tryRepairAndParseJson` from `src/lib/utils.js` lines 71-88,
parameterized by the platform `JSON.parse` and the external `jsonrepair`
(both effect-free text functions): parse directly; on a syntax error,
repair the text and re-parse it; if the repair or the re-parse fails,
raise the original parse error. -/
def tryRepairAndParseJson (parse : String → Except ParseError Json)
    (repair : String → Except String String) (jsonString : String) :
    Except ParseError Json :=
  match parse jsonString with
  | .ok v => .ok v
  | .error parseErr =>
    match parseErr with
    | .synErr m =>
      (match repair jsonString with
       | .ok repairedJsonString =>
         (match parse repairedJsonString with
          | .ok v => .ok v
          | .error _ => .error (.synErr m))
       | .error _ => .error (.synErr m))
    | .otherErr m => .error (.otherErr m)

/-- C7: when the direct parse fails with a syntax error and the repair
pass or the re-parse of the repaired text also fails, the decode raises
the original parse error (not the repair error). -/
theorem tryRepair_raises_original (parse : String → Except ParseError Json)
    (repair : String → Except String String) (s m : String)
    (h1 : parse s = Except.error (.synErr m))
    (h2 : ∀ rs, repair s = Except.ok rs → ∃ e, parse rs = Except.error e) :
    tryRepairAndParseJson parse repair s = Except.error (.synErr m) := by
  rw [tryRepairAndParseJson, h1]
  cases hr : repair s with
  | error e => rfl
  | ok rs =>
    obtain ⟨e, he⟩ := h2 rs hr
    simp [he]

/-- Witness for C7 with a parse that always raises a syntax error and a
repair that always fails. -/
theorem tryRepair_raises_original_witness :
    tryRepairAndParseJson (fun _ => Except.error (.synErr "bad"))
        (fun _ => Except.error "nope") "x"
      = Except.error (.synErr "bad") :=
  tryRepair_raises_original (fun _ => Except.error (.synErr "bad"))
    (fun _ => Except.error "nope") "x" "bad" rfl
    (fun _ h => Except.noConfusion h)

end LocalDb
